import Mathlib

/-!
# Runelink federation core: verified embedding

A shallow embedding of the federation core of the Runelink repository
(host canonicalization, locality gate, federation request/reply
correlation, connection pools, token grants, membership operations),
with theorems settling the specification claims about it.

Hosts and other strings are modelled as `List Char`; machine integers
that cannot overflow in practice (ports, timestamps) as `Nat`/`Int`;
UUIDs as `Nat`; fallible operations return `Except`.
-/

namespace Runelink

/-! ## Host canonicalization (runelink-client/src/util.rs) -/

/-- The suffix `":7000"` appended by `pad_host` (default port). -/
def portSuffix : List Char := ':' :: '7' :: '0' :: '0' :: '0' :: []

/-- `l.starts_with(c)` on strings, over the character list. -/
def startsWithChar (l : List Char) (c : Char) : Bool :=
  match l with
  | [] => false
  | x :: _ => x = c

/-- `&host[closing + 1 ..]` where `closing = host.find(c)`: the suffix of
`host` strictly after the first occurrence of `c`, or `none` when `c`
does not occur (Rust's `find` + slice in `pad_host`). -/
def afterFirst (c : Char) : List Char → Option (List Char)
  | [] => none
  | x :: xs => if x = c then some xs else afterFirst c xs

/-- `pad_host` from `runelink-client/src/util.rs`: bracketed (IPv6)
hosts get `":7000"` appended unless the first `']'` is followed by a
`':'`; unbracketed hosts get `":7000"` appended unless they already
contain a `':'`. -/
def pad_host (host : List Char) : List Char :=
  if startsWithChar host '[' then
    match afterFirst ']' host with
    | some after =>
      if startsWithChar after ':' then host
      else host ++ portSuffix
    | none => host ++ portSuffix
  else if ':' ∈ host then host
  else host ++ portSuffix

/-! ## Server configuration (runelink-server/src/config.rs) -/

/-- The fields of `ServerConfig` that the federation core reads
(`database_url` and `key_dir` are carried but never branched on here). -/
structure ServerConfig where
  local_host_raw : List Char
  database_url : List Char
  port : Nat
deriving Repr, DecidableEq

/-- `ServerConfig::local_host`: includes the port iff it is not the
default port 7000. -/
def ServerConfig.local_host (cfg : ServerConfig) : List Char :=
  if cfg.port = 7000 then cfg.local_host_raw
  else cfg.local_host_raw ++ (':' :: (Nat.repr cfg.port).toList)

/-- `ServerConfig::is_remote_host`: `None` is local; `Some h` is remote
iff its padded form differs from the padded local host. -/
def ServerConfig.is_remote_host (cfg : ServerConfig) (host : Option (List Char)) : Bool :=
  match host with
  | none => false
  | some h => pad_host h ≠ pad_host cfg.local_host

/-- A host for which a second `pad_host` application is the identity:
either it does not open a bracket, or the first `']'` is followed by
nothing or by a `':'`. Malformed bracketed hosts (no `']'`, or junk
between `']'` and the port) fall outside this set. -/
def wellBracketed (host : List Char) : Bool :=
  if startsWithChar host '[' then
    match afterFirst ']' host with
    | some after => after = [] || startsWithChar after ':'
    | none => false
  else true

/-- A malformed IPv6 literal without the closing bracket, `"[::1"`. -/
def malformedV6 : List Char := '[' :: ':' :: ':' :: '1' :: []

/-- An ordinary hostname, `"h1"`. -/
def exHost : List Char := 'h' :: '1' :: []

/-- A second hostname, `"h2"`. -/
def exHost2 : List Char := 'h' :: '2' :: []

/-! ## Core entity types (runelink-types) -/

/-- 128-bit UUIDs, modelled as naturals. -/
abbrev Uuid := Nat

/-- `UserRole` from `runelink-types` (spec §3: `role ∈ {user, admin}`). -/
inductive UserRole
  | user
  | admin
deriving Repr, DecidableEq

/-- `UserRef`: the stable identity of a user across federation. -/
structure UserRef where
  name : List Char
  host : List Char
deriving Repr, DecidableEq

/-- Modelled from the spec: `runelink-types/src/user.rs` is not in the
source tree; spec §3 defines `User` as `UserRef + role ∈ {user, admin}`. -/
structure User where
  name : List Char
  host : List Char
  role : UserRole
deriving Repr, DecidableEq

/-- Modelled from the spec: `User::as_ref` (missing with `user.rs`,
used as `user.as_ref()` throughout the server code) projects the stable
federation identity `(name, host)` out of a user. -/
def User.as_ref (u : User) : UserRef :=
  { name := u.name, host := u.host }

/-- `ServerRole` from `runelink-types/src/server.rs`. -/
inductive ServerRole
  | member
  | admin
deriving Repr, DecidableEq

/-- `Server` from `runelink-types/src/server.rs`. -/
structure Server where
  id : Uuid
  host : List Char
  title : List Char
  description : Option (List Char)
  created_at : Int
  updated_at : Int
deriving Repr, DecidableEq

/-- `NewServer` from `runelink-types/src/server.rs`. -/
structure NewServer where
  title : List Char
  description : Option (List Char)
deriving Repr, DecidableEq

/-- `Channel` from `runelink-types/src/channel.rs` (file not in the
source tree; fields per spec §3: `(id, server_id, title, description?,
timestamps)`). -/
structure Channel where
  id : Uuid
  server_id : Uuid
  title : List Char
  description : Option (List Char)
  created_at : Int
  updated_at : Int
deriving Repr, DecidableEq

/-- `NewChannel`: creation payload of a channel (title and optional
description, per spec §3). -/
structure NewChannel where
  title : List Char
  description : Option (List Char)
deriving Repr, DecidableEq

/-- `Message` from `runelink-types/src/message.rs`. -/
structure Message where
  id : Uuid
  channel_id : Uuid
  author : Option User
  body : List Char
  created_at : Int
  updated_at : Int
deriving Repr, DecidableEq

/-- `NewMessage` from `runelink-types/src/message.rs`. -/
structure NewMessage where
  author : UserRef
  body : List Char
deriving Repr, DecidableEq

/-- `ServerMembership` from `runelink-types/src/server.rs`. -/
structure ServerMembership where
  server : Server
  user_ref : UserRef
  role : ServerRole
  joined_at : Int
  updated_at : Int
  synced_at : Option Int
deriving Repr, DecidableEq

/-- `FullServerMembership` from `runelink-types/src/server.rs`. -/
structure FullServerMembership where
  server : Server
  user : User
  role : ServerRole
  joined_at : Int
  updated_at : Int
  synced_at : Option Int
deriving Repr, DecidableEq

/-- `ServerMember` from `runelink-types/src/server.rs`. -/
structure ServerMember where
  user : User
  role : ServerRole
  joined_at : Int
  updated_at : Int
deriving Repr, DecidableEq

/-- `NewServerMembership` from `runelink-types/src/server.rs`. -/
structure NewServerMembership where
  user_ref : UserRef
  server_id : Uuid
  server_host : List Char
  role : ServerRole
deriving Repr, DecidableEq

/-- `ServerMembership::as_full` from `runelink-types/src/server.rs`. -/
def ServerMembership.as_full (m : ServerMembership) (user : User) : FullServerMembership :=
  { server := m.server
    user := user
    role := m.role
    joined_at := m.joined_at
    updated_at := m.updated_at
    synced_at := m.synced_at }

/-- `impl From<FullServerMembership> for ServerMembership` from
`runelink-types/src/server.rs`: `user_ref` is rebuilt via
`user.as_ref()`. -/
def serverMembership_from_full (full : FullServerMembership) : ServerMembership :=
  { server := full.server
    user_ref := full.user.as_ref
    role := full.role
    joined_at := full.joined_at
    updated_at := full.updated_at
    synced_at := full.synced_at }

/-! ## Errors (runelink-server/src/error.rs, runelink-types/src/ws.rs) -/

/-- `ApiError` from `runelink-server/src/error.rs`. The `Client`
(upstream HTTP) variant carries only the rendered message here, since no
claim branches on its payload. -/
inductive ApiError
  | DbConnectionError (msg : List Char)
  | UniqueViolation
  | NotFound
  | DatabaseError (msg : List Char)
  | AuthError (msg : List Char)
  | BadRequest (msg : List Char)
  | Unknown (msg : List Char)
  | Internal (msg : List Char)
  | Client (msg : List Char)
deriving Repr, DecidableEq

/-- `WsError` from `runelink-types/src/ws.rs` (`details: Option<Value>`
is carried opaquely by the manager and omitted here). -/
structure WsError where
  code : List Char
  message : List Char
deriving Repr, DecidableEq

/-! ## Federation websocket payload types (runelink-types/src/ws.rs) -/

/-- `FederationWsRequest` from `runelink-types/src/ws.rs`. -/
inductive FederationWsRequest
  | ConnectionState
  | UsersGetAll
  | UsersGetByRef (user_ref : UserRef)
  | UsersGetAssociatedHosts (user_ref : UserRef)
  | UsersDelete (user_ref : UserRef)
  | MembershipsCreate (server_id : Uuid) (new_membership : NewServerMembership)
  | MembershipsGetByUser (user_ref : UserRef)
  | MembershipsDelete (server_id : Uuid) (user_ref : UserRef)
  | MembershipsGetMembersByServer (server_id : Uuid)
  | MembershipsGetByUserAndServer (server_id : Uuid) (user_ref : UserRef)
  | ServersCreate (new_server : NewServer)
  | ServersDelete (server_id : Uuid)
  | ServersGetAll
  | ServersGetById (server_id : Uuid)
  | ServersGetWithChannels (server_id : Uuid)
  | ChannelsCreate (server_id : Uuid) (new_channel : NewChannel)
  | ChannelsGetAll
  | ChannelsGetByServer (server_id : Uuid)
  | ChannelsGetById (server_id : Uuid) (channel_id : Uuid)
  | ChannelsDelete (server_id : Uuid) (channel_id : Uuid)
  | MessagesCreate (server_id : Uuid) (channel_id : Uuid) (new_message : NewMessage)
  | MessagesGetAll
  | MessagesGetByServer (server_id : Uuid)
  | MessagesGetByChannel (server_id : Uuid) (channel_id : Uuid)
  | MessagesGetById (server_id : Uuid) (channel_id : Uuid) (message_id : Uuid)
  | MessagesDelete (server_id : Uuid) (channel_id : Uuid) (message_id : Uuid)
deriving Repr, DecidableEq

/-- `FederationWsReply` from `runelink-types/src/ws.rs` (the
`ConnectionState` payload is irrelevant to every claim and dropped). -/
inductive FederationWsReply
  | ConnectionState
  | UsersGetAll (users : List User)
  | UsersGetByRef (user : User)
  | UsersGetAssociatedHosts (hosts : List (List Char))
  | UsersDelete
  | MembershipsCreate (membership : FullServerMembership)
  | MembershipsGetByUser (memberships : List ServerMembership)
  | MembershipsDelete
  | MembershipsGetMembersByServer (members : List ServerMember)
  | MembershipsGetByUserAndServer (member : ServerMember)
  | ServersCreate (server : Server)
  | ServersDelete
  | ServersGetAll (servers : List Server)
  | ServersGetById (server : Server)
  | ServersGetWithChannels (server : Server) (channels : List Channel)
  | ChannelsCreate (channel : Channel)
  | ChannelsGetAll (channels : List Channel)
  | ChannelsGetByServer (channels : List Channel)
  | ChannelsGetById (channel : Channel)
  | ChannelsDelete
  | MessagesCreate (message : Message)
  | MessagesGetAll (messages : List Message)
  | MessagesGetByServer (messages : List Message)
  | MessagesGetByChannel (messages : List Message)
  | MessagesGetById (message : Message)
  | MessagesDelete
deriving Repr, DecidableEq

/-- `ClientWsUpdate` from `runelink-types/src/ws.rs`. -/
inductive ClientWsUpdate
  | UserUpserted (user : User)
  | UserDeleted (user_ref : UserRef)
  | MembershipUpserted (membership : FullServerMembership)
  | MembershipDeleted (server_id : Uuid) (user_ref : UserRef)
  | ServerUpserted (server : Server)
  | ServerDeleted (server_id : Uuid)
  | ChannelUpserted (channel : Channel)
  | ChannelDeleted (server_id : Uuid) (channel_id : Uuid)
  | MessageUpserted (message : Message)
  | MessageDeleted (server_id : Uuid) (channel_id : Uuid) (message_id : Uuid)
deriving Repr, DecidableEq

/-- `FederationWsUpdate` from `runelink-types/src/ws.rs`. -/
inductive FederationWsUpdate
  | MembershipUpserted (membership : FullServerMembership)
  | MembershipDeleted (server_id : Uuid) (user_ref : UserRef)
  | ServerUpserted (server : Server)
  | ServerDeleted (server_id : Uuid)
  | ChannelUpserted (channel : Channel)
  | ChannelDeleted (server_id : Uuid) (channel_id : Uuid)
  | MessageUpserted (server_id : Uuid) (message : Message)
  | MessageDeleted (server_id : Uuid) (channel_id : Uuid) (message_id : Uuid)
  | RemoteUserDeleted (user_ref : UserRef)
deriving Repr, DecidableEq

/-- `FederationWsEnvelope` from `runelink-types/src/ws.rs`. -/
inductive FederationWsEnvelope
  | Request (request_id : Uuid) (event_id : Uuid)
      (delegated_user_ref : Option UserRef) (request : FederationWsRequest)
  | Reply (request_id : Uuid) (event_id : Uuid) (reply : FederationWsReply)
  | Error (request_id : Option Uuid) (event_id : Uuid) (error : WsError)
  | Update (event_id : Uuid) (update : FederationWsUpdate)
deriving Repr, DecidableEq

/-! ## Federation manager: request/reply correlation
(runelink-server/src/ws/federation_manager.rs) -/

/-- A pending-map entry: the `oneshot::Sender` installed for an
in-flight request. `alive` records whether the receiving half (the
caller) still exists — `Sender::send` succeeds exactly then. -/
structure Waiter where
  id : Nat
  alive : Bool
deriving Repr, DecidableEq

/-- The payload a waiter is completed with:
`Result<FederationWsReply, WsError>`. -/
abbrev FedOutcome := Except WsError FederationWsReply

/-- The `pending: HashMap<Uuid, Sender>` map of the manager, as an
association list (the manager never stores two entries under one key:
`insert` is only called with a fresh `Uuid::new_v4`). -/
abbrev PendingMap := List (Uuid × Waiter)

/-- `HashMap::remove(&request_id)`: the removed waiter (if present) and
the map without that key. -/
def pendingRemove (pending : PendingMap) (request_id : Uuid) :
    Option Waiter × PendingMap :=
  (List.lookup request_id pending,
   pending.filter (fun e => e.1 != request_id))

/-- The destructuring at the top of `resolve_response_envelope`: a
`Reply` yields `(request_id, Ok(reply))`, an `Error` with a request id
yields `(request_id, Err(error))`, everything else is rejected. -/
def envelopeOutcome : FederationWsEnvelope → Option (Uuid × FedOutcome)
  | .Reply request_id _ reply => some (request_id, .ok reply)
  | .Error (some request_id) _ error => some (request_id, .error error)
  | _ => none

/-- `FederationWsManager::resolve_response_envelope`: remove the waiter
for the envelope's request id and complete it. Returns the pending map
afterwards, the completed waiter with its outcome (if a waiter was found),
and the function's boolean result (`sender.send(outcome).is_ok()`). -/
def resolve_response_envelope (pending : PendingMap)
    (envelope : FederationWsEnvelope) :
    PendingMap × Option (Waiter × FedOutcome) × Bool :=
  match envelopeOutcome envelope with
  | none => (pending, none, false)
  | some (request_id, outcome) =>
    match pendingRemove pending request_id with
    | (none, pending') => (pending', none, false)
    | (some w, pending') => (pending', some (w, outcome), w.alive)

instance {ε α : Type} [DecidableEq ε] [DecidableEq α] : DecidableEq (Except ε α) := fun x y =>
  match x, y with
  | .ok a, .ok b => decidable_of_iff (a = b) (by simp)
  | .error a, .error b => decidable_of_iff (a = b) (by simp)
  | .ok _, .error _ => isFalse (fun h => Except.noConfusion h)
  | .error _, .ok _ => isFalse (fun h => Except.noConfusion h)

/-- What arrives on the oneshot receiver within the timeout window, for
one `send_request_to_host` call (`tokio::time::timeout(timeout, rx)`). -/
inductive RxResult
  | reply (r : FederationWsReply)
  | remoteError (e : WsError)
  | closed
  | timedOut
deriving Repr, DecidableEq

/-- `FederationRequestError` from `runelink-server/src/ws/error.rs`. -/
inductive FederationRequestError
  | HostUnavailable (host : List Char)
  | Timeout (host : List Char) (request_id : Uuid)
  | ChannelClosed (request_id : Uuid)
  | Remote (code : List Char) (message : List Char) (error : WsError)
deriving Repr, DecidableEq

/-- The environment of one `send_request_to_host` call: what the pool
and the dial would do at each suspension point. -/
structure SendEnv where
  /-- `pool.has_host(host)` at the first `ensure_connection` check. -/
  has_host_before : Bool
  /-- what `connect_to_host` returns (token minting + websocket dial). -/
  dial_ok : Bool
  /-- `pool.has_host(host)` at the re-check after a successful dial. -/
  has_host_after_dial : Bool
  /-- what `pool.send_to_host(&host, envelope)` returns. -/
  send_ok : Bool
  /-- what the oneshot wait produces. -/
  rx : RxResult
deriving Repr, DecidableEq

/-- `FederationWsManager::ensure_connection`: connection success plus
the number of dial attempts made. -/
def ensure_connection (env : SendEnv) : Bool × Nat :=
  if env.has_host_before then (true, 0)
  else if !env.dial_ok then (false, 1)
  else (env.has_host_after_dial, 1)

/-- The observable outcome of one `send_request_to_host` call: its
result, the pending map as this call leaves it (removals performed by the
concurrent `resolve_response_envelope` are modelled separately on that
function), the dial attempts made, and whether a waiter was ever
inserted into the pending map. -/
structure SendResult where
  result : Except FederationRequestError FederationWsReply
  pending : PendingMap
  dials : Nat
  waiter_inserted : Bool
deriving Repr, DecidableEq

/-- `FederationWsManager::send_request_to_host`, with the fresh
`request_id` and the allocated oneshot `w` made explicit. -/
def send_request_to_host (pending : PendingMap) (host : List Char)
    (request_id : Uuid) (w : Waiter) (env : SendEnv) : SendResult :=
  let host := pad_host host
  let ec := ensure_connection env
  if !ec.1 then
    { result := .error (.HostUnavailable host)
      pending := pending
      dials := ec.2
      waiter_inserted := false }
  else
    let pending1 : PendingMap := (request_id, w) :: pending
    if !env.send_ok then
      { result := .error (.HostUnavailable host)
        pending := (pendingRemove pending1 request_id).2
        dials := ec.2
        waiter_inserted := true }
    else
      match env.rx with
      | .reply r =>
        { result := .ok r, pending := pending1
          dials := ec.2, waiter_inserted := true }
      | .remoteError e =>
        { result := .error (.Remote e.code e.message e), pending := pending1
          dials := ec.2, waiter_inserted := true }
      | .closed =>
        { result := .error (.ChannelClosed request_id), pending := pending1
          dials := ec.2, waiter_inserted := true }
      | .timedOut =>
        { result := .error (.Timeout host request_id)
          pending := (pendingRemove pending1 request_id).2
          dials := ec.2, waiter_inserted := true }

/-! ## Federation connection pool (runelink-server/src/ws/pools.rs) -/

/-- A partial-map update, modelling one `HashMap` slot write. -/
def mapUpdate {α β : Type} [DecidableEq α] (m : α → Option β) (k : α)
    (v : Option β) : α → Option β :=
  fun x => if x = k then v else m x

/-- `FederationPoolState`: the two indices of the federation pool,
`connections: HashMap<Uuid, FederationConn>` (each connection carries
`host: Option<String>`, so a connection is tied to at most one host by
construction; senders and timestamps are never branched on and are not
modelled) and `by_host: HashMap<String, Uuid>`. -/
structure FederationPoolState where
  connections : Uuid → Option (Option (List Char))
  by_host : List Char → Option Uuid

/-- The empty pool (`FederationWsPool::new`). -/
def emptyPool : FederationPoolState :=
  { connections := fun _ => none, by_host := fun _ => none }

/-- `FederationWsPool::remove_conn_from_host_index`: drop the host index
entry only if it still points at this very connection. -/
def remove_conn_from_host_index (by_host : List Char → Option Uuid)
    (host : List Char) (conn_id : Uuid) : List Char → Option Uuid :=
  if by_host host = some conn_id then mapUpdate by_host host none else by_host

/-- `FederationWsPool::remove_federation_connection`: remove the
connection and clean its host index entry; `false` when the connection
was not registered. -/
def remove_federation_connection (s : FederationPoolState) (conn_id : Uuid) :
    FederationPoolState × Bool :=
  match s.connections conn_id with
  | none => (s, false)
  | some hostOpt =>
    let s1 : FederationPoolState :=
      { s with connections := mapUpdate s.connections conn_id none }
    match hostOpt with
    | some host =>
      ({ s1 with by_host := remove_conn_from_host_index s1.by_host host conn_id }, true)
    | none => (s1, true)

/-- `FederationWsPool::register_connection`: clean up any previous entry
under this id, then insert an unauthenticated connection. -/
def register_connection (s : FederationPoolState) (conn_id : Uuid) :
    FederationPoolState :=
  let s1 : FederationPoolState :=
    match s.connections conn_id with
    | some (some previous_host) =>
      { s with by_host := remove_conn_from_host_index s.by_host previous_host conn_id }
    | _ => s
  { s1 with connections := mapUpdate s1.connections conn_id (some none) }

/-- The first block of `authenticate_connection`: `if let
Some(previous_host) = previous_host_for_conn.as_deref() { ... }` —
unlink the connection from the host index entry of its previous host. -/
def auth_unlink_previous (s : FederationPoolState) (conn_id : Uuid)
    (previous_host_for_conn : Option (List Char)) : FederationPoolState :=
  match previous_host_for_conn with
  | some previous_host =>
    { s with by_host := remove_conn_from_host_index s.by_host previous_host conn_id }
  | none => s

/-- The second block of `authenticate_connection`: `if let
Some(existing_conn_id) = state.by_host.get(&host) { ... }` — evict any
different connection currently registered for the target host. -/
def auth_evict_existing (s : FederationPoolState) (conn_id : Uuid)
    (host : List Char) : FederationPoolState :=
  match s.by_host host with
  | some existing_conn_id =>
    if existing_conn_id ≠ conn_id then
      (remove_federation_connection s existing_conn_id).1
    else s
  | none => s

/-- `FederationWsPool::authenticate_connection`: unlink the connection's
previous host, evict any different connection registered for the new
host, then bind the connection and the host index to each other. -/
def authenticate_connection (s : FederationPoolState) (conn_id : Uuid)
    (host : List Char) : FederationPoolState × Bool :=
  match s.connections conn_id with
  | none => (s, false)
  | some previous_host_for_conn =>
    let s2 := auth_evict_existing
      (auth_unlink_previous s conn_id previous_host_for_conn) conn_id host
    ({ connections := mapUpdate s2.connections conn_id (some (some host))
       by_host := mapUpdate s2.by_host host (some conn_id) }, true)

/-- `FederationWsPool::deregister_connection`. -/
def deregister_connection (s : FederationPoolState) (conn_id : Uuid) :
    FederationPoolState × Bool :=
  remove_federation_connection s conn_id

/-- The pool states reachable through the pool's public operations,
starting from the empty pool. -/
inductive PoolReachable : FederationPoolState → Prop
  | init : PoolReachable emptyPool
  | register (s : FederationPoolState) (conn_id : Uuid) :
      PoolReachable s → PoolReachable (register_connection s conn_id)
  | auth (s : FederationPoolState) (conn_id : Uuid) (host : List Char) :
      PoolReachable s → PoolReachable (authenticate_connection s conn_id host).1
  | dereg (s : FederationPoolState) (conn_id : Uuid) :
      PoolReachable s → PoolReachable (deregister_connection s conn_id).1

/-- Coherence of the two pool indices: the host index points at a live
connection authenticated to that host, and every authenticated
connection is indexed under its host. -/
def PoolInv (s : FederationPoolState) : Prop :=
  (∀ h cid, s.by_host h = some cid → s.connections cid = some (some h)) ∧
  (∀ cid h, s.connections cid = some (some h) → s.by_host h = some cid)

/-! ## Error message literals used by the modelled operations -/

/-- `"Channel not found in specified server"`. -/
def strChannelNotInServer : List Char :=
  ("Channel not found in specified server").toList

/-- `"Message not found in specified channel"`. -/
def strMessageNotInChannel : List Char :=
  ("Message not found in specified channel").toList

/-- `"Message not found in specified server"`. -/
def strMessageNotInServer : List Char :=
  ("Message not found in specified server").toList

/-- The fragment `"not found in specified"` common to the three. -/
def strNotFoundInSpecified : List Char :=
  ("not found in specified").toList

/-- `"User host in membership does not match local host"`. -/
def strUserHostMismatch : List Char :=
  ("User host in membership does not match local host").toList

/-- `"User reference required for leaving server"`. -/
def strUserRefRequiredLeave : List Char :=
  ("User reference required for leaving server").toList

/-- `"User identity in path does not match authenticated user"`. -/
def strUserIdentityMismatch : List Char :=
  ("User identity in path does not match authenticated user").toList

/-- `"refresh token expired or revoked"`. -/
def strRefreshExpired : List Char :=
  ("refresh token expired or revoked").toList

/-- `"User reference required for federated channel creation"`. -/
def strUserRefRequiredChannelCreate : List Char :=
  ("User reference required for federated channel creation").toList

/-- `"Failed to create channel on {host}: {e}"`. -/
def strFailedCreateChannel (host e : List Char) : List Char :=
  ("Failed to create channel on ").toList ++ host ++ (": ").toList ++ e

/-- `"Unexpected federation reply from {host} for {op}"`. -/
def strUnexpectedReply (host op : List Char) : List Char :=
  ("Unexpected federation reply from ").toList ++ host
    ++ (" for ").toList ++ op

/-! ## Sessions and operation effects -/

/-- Modelled from the spec: `crate::auth` (`runelink-server/src/auth.rs`)
is not in the source tree; spec §4.4 says a `Session` carries the
authenticated `user_ref?` (its memoized lookups are passed separately
where an operation reads them). -/
structure Session where
  user_ref : Option UserRef
deriving Repr, DecidableEq

/-- One observable outbound side effect of a domain operation, in
program order: store reads/writes, client websocket sends, federation
websocket update sends (`send_update_to_hosts`), federation websocket
requests (`federation::request` → `send_request_to_host`), and delegated
federation HTTP requests (`requests::*::federated::*`). -/
inductive OpEffect
  | dbRead
  | dbWrite
  | clientSend (user : UserRef) (update : ClientWsUpdate)
  | fedUpdateSend (host : List Char) (update : FederationWsUpdate)
  | fedWsRequest (host : List Char) (delegated : Option UserRef)
      (request : FederationWsRequest)
  | fedHttpRequest (host : List Char) (delegated : UserRef)
deriving Repr, DecidableEq

/-- Whether an effect is outbound federation traffic of any kind
(update, websocket request, or delegated federation HTTP request). -/
def OpEffect.isFederationTraffic : OpEffect → Bool
  | .fedUpdateSend _ _ => true
  | .fedWsRequest _ _ _ => true
  | .fedHttpRequest _ _ => true
  | _ => false

/-- Whether an effect is an outbound federation *request* (remote
delegation), as opposed to a best-effort update. -/
def OpEffect.isFederationRequest : OpEffect → Bool
  | .fedWsRequest _ _ _ => true
  | .fedHttpRequest _ _ => true
  | _ => false

/-! ## Fanout engine (runelink-server/src/ops/fanout.rs) -/

/-- `ServerFanoutTargets` from `runelink-server/src/ops/fanout.rs`. -/
structure ServerFanoutTargets where
  local_users : List UserRef
  remote_hosts : List (List Char)
deriving Repr, DecidableEq

/-- `fanout_update`: send the client update to every target local user
and the federation update once to each distinct remote host
(`send_update_to_hosts` deduplicates through a `HashSet`). -/
def fanout_update (targets : ServerFanoutTargets)
    (client_update : ClientWsUpdate)
    (federation_update : FederationWsUpdate) : List OpEffect :=
  (targets.local_users.map fun u => OpEffect.clientSend u client_update) ++
  (targets.remote_hosts.dedup.map fun h =>
    OpEffect.fedUpdateSend h federation_update)

/-! ## Locality gate: channel operations
(runelink-server/src/ops/channels.rs) -/

/-- Environment of one `ops::channels::create` call: what the store and
the remote peer would answer at each suspension point. -/
structure ChannelsCreateEnv where
  /-- `queries::channels::insert` result row. -/
  inserted : Channel
  /-- `fanout::resolve_server_targets` result. -/
  targets : ServerFanoutTargets
  /-- `requests::channels::federated::create` result (error rendered). -/
  remote_result : Except (List Char) Channel
deriving Repr, DecidableEq

/-- `ops::channels::create`: the locality gate decides between the local
store-plus-fanout path and the delegated remote path. Returns the
operation result and the ordered effect trace. -/
def channels_create (cfg : ServerConfig) (session : Session)
    (_server_id : Uuid) (_new_channel : NewChannel)
    (target_host : Option (List Char)) (env : ChannelsCreateEnv) :
    Except ApiError Channel × List OpEffect :=
  if !(cfg.is_remote_host target_host) then
    (.ok env.inserted,
      OpEffect.dbWrite :: OpEffect.dbRead ::
        fanout_update env.targets
          (.ChannelUpserted env.inserted) (.ChannelUpserted env.inserted))
  else
    match target_host with
    | none => (.error (.Internal []), [])
    | some host =>
      match session.user_ref with
      | none => (.error (.Internal strUserRefRequiredChannelCreate), [])
      | some user_ref =>
        match env.remote_result with
        | .ok channel =>
          (.ok channel, [OpEffect.fedHttpRequest host user_ref])
        | .error e =>
          (.error (.Internal (strFailedCreateChannel host e)),
           [OpEffect.fedHttpRequest host user_ref])

/-- The local branch of `ops::channels::get_by_id`: the channel is
fetched by id and returned as-is — the `server_id` path parameter is not
compared against `channel.server_id`. -/
def channels_get_by_id_local (_server_id : Uuid)
    (db_channel : Except ApiError Channel) : Except ApiError Channel :=
  match db_channel with
  | .error e => .error e
  | .ok channel => .ok channel

/-- The local branch of `ops::channels::delete`: verify the channel
belongs to the server, then delete (the fanout afterwards does not
change the result). -/
def channels_delete_local (server_id : Uuid)
    (db_channel : Except ApiError Channel)
    (db_delete : Except ApiError Unit) : Except ApiError Unit :=
  match db_channel with
  | .error e => .error e
  | .ok channel =>
    if channel.server_id ≠ server_id then
      .error (.AuthError strChannelNotInServer)
    else db_delete

/-! ## Locality gate: message operations
(runelink-server/src/ops/messages.rs) -/

/-- The local branch of `ops::messages::get_by_id`: the message must
belong to the channel in the path and the channel to the server in the
path. -/
def messages_get_by_id_local (server_id channel_id : Uuid)
    (db_message : Except ApiError Message)
    (db_channel : Except ApiError Channel) : Except ApiError Message :=
  match db_message with
  | .error e => .error e
  | .ok message =>
    if message.channel_id ≠ channel_id then
      .error (.AuthError strMessageNotInChannel)
    else
      match db_channel with
      | .error e => .error e
      | .ok channel =>
        if channel.server_id ≠ server_id then
          .error (.AuthError strMessageNotInServer)
        else .ok message

/-- The local branch of `ops::messages::delete`: same two path checks as
`get_by_id`, then the row delete. -/
def messages_delete_local (server_id channel_id : Uuid)
    (db_message : Except ApiError Message)
    (db_channel : Except ApiError Channel)
    (db_delete : Except ApiError Unit) : Except ApiError Unit :=
  match db_message with
  | .error e => .error e
  | .ok message =>
    if message.channel_id ≠ channel_id then
      .error (.AuthError strMessageNotInChannel)
    else
      match db_channel with
      | .error e => .error e
      | .ok channel =>
        if channel.server_id ≠ server_id then
          .error (.AuthError strMessageNotInServer)
        else db_delete

/-! ## Locality gate: membership operations
(runelink-server/src/ops/memberships.rs) -/

/-- Environment of one `ops::memberships::create` call. -/
structure MembershipsCreateEnv where
  /-- `federation::request(.., MembershipsCreate, ..)` result. -/
  fed_create_reply : Except ApiError FederationWsReply
  /-- `queries::memberships::insert_remote` result row. -/
  cached_membership : ServerMembership
  /-- `session.lookup_user` result (memoized local user of the session). -/
  session_user : Option User
  /-- `federation::request(.., UsersGetByRef, ..)` result. -/
  fed_user_reply : Except ApiError FederationWsReply
  /-- `queries::memberships::insert_local` result row. -/
  member : ServerMember
  /-- `queries::memberships::get_local_by_user_and_server` result row. -/
  membership : ServerMembership
  /-- `fanout::resolve_server_targets` result. -/
  targets : ServerFanoutTargets
deriving Repr, DecidableEq

/-- `ops::memberships::create`: remote-server memberships are proxied
via federation (only for local users) and mirrored locally; local-server
memberships may first fetch and cache an unknown remote user. -/
def memberships_create (cfg : ServerConfig)
    (new_membership : NewServerMembership) (env : MembershipsCreateEnv) :
    Except ApiError FullServerMembership × List OpEffect :=
  if cfg.is_remote_host (some new_membership.server_host) then
    -- Home server should only create memberships for its own users.
    if cfg.is_remote_host (some new_membership.user_ref.host) then
      (.error (.BadRequest strUserHostMismatch), [])
    else
      let req := OpEffect.fedWsRequest new_membership.server_host
        (some new_membership.user_ref)
        (.MembershipsCreate new_membership.server_id new_membership)
      match env.fed_create_reply with
      | .error e => (.error e, [req])
      | .ok (.MembershipsCreate membership) =>
        (.ok (env.cached_membership.as_full membership.user),
         [req, OpEffect.dbWrite, OpEffect.dbWrite])
      | .ok _ =>
        (.error (.Internal (strUnexpectedReply new_membership.server_host
            (("memberships.create").toList))), [req])
  else
    -- ensure a remote user exists locally before creating the membership
    let user_step : List OpEffect × Option ApiError :=
      if new_membership.user_ref.host ≠ cfg.local_host then
        match env.session_user with
        | some _ => ([OpEffect.dbRead], none)
        | none =>
          let ureq := OpEffect.fedWsRequest new_membership.user_ref.host none
            (.UsersGetByRef new_membership.user_ref)
          match env.fed_user_reply with
          | .error e => ([OpEffect.dbRead, ureq], some e)
          | .ok (.UsersGetByRef _) =>
            ([OpEffect.dbRead, ureq, OpEffect.dbWrite], none)
          | .ok _ =>
            ([OpEffect.dbRead, ureq],
             some (.Internal (strUnexpectedReply new_membership.user_ref.host
                (("users.get_by_ref").toList))))
      else ([], none)
    match user_step with
    | (effects, some e) => (.error e, effects)
    | (effects, none) =>
      let full : FullServerMembership :=
        { server := env.membership.server
          user := env.member.user
          role := env.membership.role
          joined_at := env.membership.joined_at
          updated_at := env.membership.updated_at
          synced_at := env.membership.synced_at }
      (.ok full,
       effects ++ [OpEffect.dbWrite, OpEffect.dbRead, OpEffect.dbRead, OpEffect.dbRead]
         ++ fanout_update env.targets
              (.MembershipUpserted full) (.MembershipUpserted full))

/-- Environment of one `ops::memberships::delete` call. -/
structure MembershipsDeleteEnv where
  /-- `fanout::resolve_server_targets` result. -/
  targets : ServerFanoutTargets
  /-- `queries::memberships::get_local_member_by_user_and_server` result. -/
  member_check : Except ApiError ServerMember
  /-- `queries::memberships::delete_local` result. -/
  db_delete : Except ApiError Unit
  /-- `federation::request(.., MembershipsDelete, ..)` result. -/
  fed_delete_reply : Except ApiError FederationWsReply
deriving Repr, DecidableEq

/-- `ops::memberships::delete`: the session must carry a `user_ref`
equal to the one being removed; then the locality gate picks the local
or the federated path. -/
def memberships_delete (cfg : ServerConfig) (session : Session)
    (server_id : Uuid) (user_ref : UserRef)
    (target_host : Option (List Char)) (env : MembershipsDeleteEnv) :
    Except ApiError Unit × List OpEffect :=
  match session.user_ref with
  | none => (.error (.AuthError strUserRefRequiredLeave), [])
  | some session_user_ref =>
    if session_user_ref ≠ user_ref then
      (.error (.BadRequest strUserIdentityMismatch), [])
    else if !(cfg.is_remote_host target_host) then
      let local_users :=
        if user_ref ∈ env.targets.local_users then env.targets.local_users
        else env.targets.local_users ++ [user_ref]
      let remote_hosts :=
        if user_ref.host ≠ cfg.local_host then
          env.targets.remote_hosts ++ [user_ref.host]
        else env.targets.remote_hosts
      match env.member_check with
      | .error e => (.error e, [OpEffect.dbRead, OpEffect.dbRead])
      | .ok _ =>
        match env.db_delete with
        | .error e =>
          (.error e, [OpEffect.dbRead, OpEffect.dbRead, OpEffect.dbWrite])
        | .ok _ =>
          (.ok (),
           [OpEffect.dbRead, OpEffect.dbRead, OpEffect.dbWrite]
             ++ fanout_update
                  { local_users := local_users, remote_hosts := remote_hosts }
                  (.MembershipDeleted server_id session_user_ref)
                  (.MembershipDeleted server_id session_user_ref))
    else
      match target_host with
      | none => (.error (.Internal []), [])
      | some host =>
        let req := OpEffect.fedWsRequest host (some user_ref)
          (.MembershipsDelete server_id user_ref)
        match env.fed_delete_reply with
        | .error e => (.error e, [req])
        | .ok .MembershipsDelete => (.ok (), [req, OpEffect.dbWrite])
        | .ok _ =>
          (.error (.Internal (strUnexpectedReply host
              (("memberships.delete").toList))), [req])

/-! ## Authorization requirements (spec §4.4; `crate::auth` is not in
the source tree) -/

/-- The `Requirement` tree, per spec §4.4 and the builders visible in
`ops/*/auth`. -/
inductive Requirement
  | Always
  | Never
  | Client
  | HostAdmin
  | User (user_ref : UserRef)
  | ServerMember (server_id : Uuid)
  | ServerAdmin (server_id : Uuid)
  | FederatedUser (user_ref : UserRef)
  | Or (a b : Requirement)
  | ClientOnly (r : Requirement)
  | FederatedOnly (r : Requirement)
deriving Repr, DecidableEq

/-- `Requirement::or_admin`: sugar for `Or(r, HostAdmin)` (spec §4.4). -/
def Requirement.or_admin (r : Requirement) : Requirement :=
  .Or r .HostAdmin

/-- `Requirement::client_only` (spec §4.4). -/
def Requirement.client_only (r : Requirement) : Requirement :=
  .ClientOnly r

/-- Modelled from the spec: the requirement evaluator of `crate::auth`
(§4.4) specialised to a *client* principal whose resolved local user is
`user`, with `memberships server_id user_ref` the membership-row lookup. -/
def evalClientRequirement (user : Option User)
    (memberships : Uuid → UserRef → Option ServerRole) :
    Requirement → Bool
  | .Always => true
  | .Never => false
  | .Client => true
  | .HostAdmin =>
    match user with
    | some u => u.role = UserRole.admin
    | none => false
  | .User user_ref =>
    match user with
    | some u => u.as_ref = user_ref
    | none => false
  | .ServerMember server_id =>
    match user with
    | some u => (memberships server_id u.as_ref).isSome
    | none => false
  | .ServerAdmin server_id =>
    match user with
    | some u => memberships server_id u.as_ref = some ServerRole.admin
    | none => false
  | .FederatedUser _ => false
  | .Or a b =>
    evalClientRequirement user memberships a
      || evalClientRequirement user memberships b
  | .ClientOnly r => evalClientRequirement user memberships r
  | .FederatedOnly _ => false

/-- `ops::memberships::auth::delete`:
`or!(Req::User(user_ref), Req::ServerAdmin(server_id)).or_admin().client_only()`. -/
def memberships_auth_delete (server_id : Uuid) (user_ref : UserRef) :
    Requirement :=
  (((Requirement.User user_ref).Or (.ServerAdmin server_id)).or_admin).client_only

/-! ## Token grants (runelink-server/src/api/auth.rs,
runelink-types/src/auth.rs) -/

/-- `RefreshToken` from `runelink-types/src/auth.rs`. -/
structure RefreshToken where
  token : List Char
  user_name : List Char
  user_host : List Char
  client_id : List Char
  issued_at : Int
  expires_at : Int
  revoked : Bool
deriving Repr, DecidableEq

/-- `ClientAccessClaims` from `runelink-types/src/auth.rs`. -/
structure ClientAccessClaims where
  iss : List Char
  sub : List Char
  aud : List (List Char)
  exp : Int
  iat : Int
  scope : List Char
  client_id : List Char
deriving Repr, DecidableEq

/-- Modelled from the spec: `UserRef::as_subject` (missing with
`user.rs`); spec §3: the string subject form is `name@host`. -/
def UserRef.as_subject (u : UserRef) : List Char :=
  u.name ++ ('@' :: u.host)

/-- `ClientAccessClaims::new`, with the ambient clock passed as `now`. -/
def ClientAccessClaims.new (user_ref : UserRef) (client_id : List Char)
    (issuer_server_id : List Char) (scope : List Char) (now : Int)
    (lifetime_secs : Int) : ClientAccessClaims :=
  { iss := issuer_server_id
    sub := user_ref.as_subject
    aud := [issuer_server_id]
    exp := now + lifetime_secs
    iat := now
    scope := scope
    client_id := client_id }

/-- `TokenResponse` from `runelink-types/src/auth.rs`; the signed
`access_token` JWT is modelled by the claims it encodes. -/
structure TokenResponse where
  access_token : ClientAccessClaims
  token_type : List Char
  expires_in : Int
  refresh_token : List Char
  scope : List Char
deriving Repr, DecidableEq

/-- The `"refresh_token"` arm of `POST /auth/token`
(`runelink-server/src/api/auth.rs`), applied to the stored row `rt`
fetched for the presented token string. Fails iff the row is revoked or
not strictly unexpired; otherwise mints a one-hour access token and
echoes the stored refresh token. -/
def token_refresh_grant (rt : RefreshToken) (now : Int)
    (client_id scope api_url : List Char) : Except ApiError TokenResponse :=
  if rt.revoked = true ∨ rt.expires_at ≤ now then
    .error (.AuthError strRefreshExpired)
  else
    let user_ref : UserRef := { name := rt.user_name, host := rt.user_host }
    let lifetime : Int := 3600
    let claims := ClientAccessClaims.new user_ref client_id api_url scope now lifetime
    .ok { access_token := claims
          token_type := ("Bearer").toList
          expires_in := lifetime
          refresh_token := rt.token
          scope := claims.scope }

/-! ## Concrete fixtures used by witnesses and counterexamples -/

/-- A local user reference `a@h1`. -/
def exUserRef : UserRef := { name := 'a' :: [], host := exHost }

/-- A remote user reference `b@h2`. -/
def exRemoteUserRef : UserRef := { name := 'b' :: [], host := exHost2 }

/-- A host admin `c@h1`. -/
def exAdminUser : User := { name := 'c' :: [], host := exHost, role := .admin }

/-- A configuration for local host `h1` on the default port. -/
def cfgEx : ServerConfig :=
  { local_host_raw := exHost, database_url := 'd' :: [], port := 7000 }

/-- A server row with id 1 on `h1`. -/
def exServer : Server :=
  { id := 1, host := exHost, title := 'g' :: [], description := none
    created_at := 0, updated_at := 0 }

/-- A channel row with id 10 inside server 1. -/
def exChannel : Channel :=
  { id := 10, server_id := 1, title := 'c' :: [], description := none
    created_at := 0, updated_at := 0 }

/-- A message row with id 20 inside channel 10. -/
def exMessage : Message :=
  { id := 20, channel_id := 10, author := none, body := 'm' :: []
    created_at := 0, updated_at := 0 }

/-- A membership row for `a@h1` on server 1. -/
def exMembership : ServerMembership :=
  { server := exServer, user_ref := exUserRef, role := .member
    joined_at := 0, updated_at := 0, synced_at := none }

/-- A member row. -/
def exMember : ServerMember :=
  { user := exAdminUser, role := .member, joined_at := 0, updated_at := 0 }

/-- Fanout targets with no local subscriber and one remote member
host `h2`. -/
def exTargets : ServerFanoutTargets :=
  { local_users := [], remote_hosts := [exHost2] }

/-- A channel-create environment over those targets. -/
def exChannelsCreateEnv : ChannelsCreateEnv :=
  { inserted := exChannel, targets := exTargets, remote_result := .error [] }

/-- A memberships-create environment (federation unanswered). -/
def exMembershipsCreateEnv : MembershipsCreateEnv :=
  { fed_create_reply := .error .NotFound
    cached_membership := exMembership
    session_user := none
    fed_user_reply := .error .NotFound
    member := exMember
    membership := exMembership
    targets := exTargets }

/-- A memberships-delete environment. -/
def exMembershipsDeleteEnv : MembershipsDeleteEnv :=
  { targets := exTargets
    member_check := .error .NotFound
    db_delete := .ok ()
    fed_delete_reply := .error .NotFound }

/-- A live, unexpired refresh-token row. -/
def rtEx : RefreshToken :=
  { token := 't' :: [], user_name := 'a' :: [], user_host := exHost
    client_id := [], issued_at := 0, expires_at := 100, revoked := false }

/-- The same row, revoked. -/
def rtRevoked : RefreshToken := { rtEx with revoked := true }

/-- A send environment in which the host was never connected and the
dial fails. -/
def exSendEnvDialFail : SendEnv :=
  { has_host_before := false, dial_ok := false, has_host_after_dial := false
    send_ok := false, rx := .timedOut }

/-- A send environment with a live connection whose oneshot wait times
out. -/
def exSendEnvTimeout : SendEnv :=
  { has_host_before := true, dial_ok := false, has_host_after_dial := false
    send_ok := true, rx := .timedOut }

/-- A pending-map waiter whose caller is still listening. -/
def exWaiter : Waiter := { id := 0, alive := true }

/-! ### Facts about `pad_host` -/

theorem afterFirst_append (c : Char) (l s : List Char) :
    afterFirst c (l ++ s) =
      match afterFirst c l with
      | some a => some (a ++ s)
      | none => afterFirst c s := by
  induction l with
  | nil => simp [afterFirst]
  | cons x xs ih =>
    by_cases hx : x = c <;> simp [afterFirst, hx, ih]

theorem startsWithChar_append (l s : List Char) (c : Char) (hl : l ≠ []) :
    startsWithChar (l ++ s) c = startsWithChar l c := by
  cases l with
  | nil => exact absurd rfl hl
  | cons x xs => simp [startsWithChar]

theorem startsWithChar_portSuffix_colon :
    startsWithChar portSuffix ':' = true := by
  simp [portSuffix, startsWithChar]

theorem colon_mem_portSuffix : ':' ∈ portSuffix := by
  simp [portSuffix]

/-- `pad_host` leaves a host alone exactly when the source's branch
conditions say so; on the well-bracketed fragment it is idempotent. -/
theorem pad_host_idem_of_wellBracketed (h : List Char)
    (hw : wellBracketed h = true) :
    pad_host (pad_host h) = pad_host h := by
  by_cases hb : startsWithChar h '[' = true
  · -- bracketed case: wellBracketed forces a ']' with good suffix
    have hne : h ≠ [] := by
      intro he; rw [he] at hb; simp [startsWithChar] at hb
    unfold wellBracketed at hw
    rw [if_pos hb] at hw
    cases haf : afterFirst ']' h with
    | none => rw [haf] at hw; simp at hw
    | some after =>
      rw [haf] at hw
      simp only [Bool.or_eq_true, decide_eq_true_eq] at hw
      cases hw with
      | inr hcolon =>
        -- first ']' already followed by ':': pad_host h = h
        have : pad_host h = h := by
          unfold pad_host; rw [if_pos hb, haf]; simp [hcolon]
        rw [this]
        unfold pad_host; rw [if_pos hb, haf]; simp [hcolon]
      | inl hemp =>
        -- nothing after the first ']': one padding reaches a fixed point
        have hpad : pad_host h = h ++ portSuffix := by
          unfold pad_host
          rw [if_pos hb, haf]
          have hsw : startsWithChar after ':' = false := by
            rw [hemp]; simp [startsWithChar]
          simp [hsw]
        rw [hpad]
        unfold pad_host
        rw [startsWithChar_append h portSuffix '[' hne, if_pos hb]
        rw [afterFirst_append, haf]
        simp only
        rw [hemp]
        simp [startsWithChar_portSuffix_colon]
  · -- unbracketed case
    simp only [Bool.not_eq_true] at hb
    by_cases hc : ':' ∈ h
    · have : pad_host h = h := by
        unfold pad_host; rw [hb]; simp [hc]
      rw [this, this]
    · have hne : pad_host h = h ++ portSuffix := by
        unfold pad_host; rw [hb]; simp [hc]
      rw [hne]
      unfold pad_host
      have hb2 : startsWithChar (h ++ portSuffix) '[' = false := by
        cases h with
        | nil => simp [portSuffix, startsWithChar]
        | cons x xs =>
          rw [startsWithChar_append (x :: xs) portSuffix '[' (by simp)]
          exact hb
      rw [hb2]
      simp [List.mem_append, colon_mem_portSuffix]

/-- `is_remote_host(Some(local_host()))` is always `false`. -/
theorem is_remote_host_local_false (cfg : ServerConfig) :
    cfg.is_remote_host (some cfg.local_host) = false := by
  simp [ServerConfig.is_remote_host]

/-! ### Facts about the pending-request map -/

theorem lookup_filter_self (pending : PendingMap) (rid : Uuid) :
    List.lookup rid (pending.filter (fun e => e.1 != rid)) = none := by
  induction pending with
  | nil => rfl
  | cons p ps ih =>
    rcases p with ⟨k, v⟩
    by_cases h : k = rid
    · subst h
      simpa using ih
    · have hbk : (k == rid) = false := by
        simp [beq_iff_eq, h]
      have hrk : (rid == k) = false := by
        simp only [beq_eq_false_iff_ne, ne_eq]
        exact fun he => h he.symm
      rw [List.filter_cons]
      have hp : ((k, v).1 != rid) = true := by simp [bne, hbk]
      rw [if_pos hp]
      simp only [List.lookup, hrk]
      exact ih

theorem filter_eq_self_of_lookup_none (pending : PendingMap) (rid : Uuid)
    (h : List.lookup rid pending = none) :
    pending.filter (fun e => e.1 != rid) = pending := by
  induction pending with
  | nil => rfl
  | cons p ps ih =>
    rcases p with ⟨k, v⟩
    by_cases hk : rid = k
    · subst hk
      simp [List.lookup] at h
    · have hrk : (rid == k) = false := by
        simp [beq_iff_eq, hk]
      have hbk : (k == rid) = false := by
        simp only [beq_eq_false_iff_ne, ne_eq]
        exact fun he => hk he.symm
      simp only [List.lookup, hrk] at h
      rw [List.filter_cons]
      have hp : ((k, v).1 != rid) = true := by simp [bne, hbk]
      rw [if_pos hp, ih h]

theorem resolve_reply_found (pending : PendingMap) (rid eid : Uuid)
    (r : FederationWsReply) (w : Waiter)
    (hw : List.lookup rid pending = some w) :
    resolve_response_envelope pending (.Reply rid eid r) =
      ((pendingRemove pending rid).2, some (w, .ok r), w.alive) := by
  unfold resolve_response_envelope envelopeOutcome pendingRemove
  simp [hw]

theorem resolve_error_found (pending : PendingMap) (rid eid : Uuid)
    (e : WsError) (w : Waiter)
    (hw : List.lookup rid pending = some w) :
    resolve_response_envelope pending (.Error (some rid) eid e) =
      ((pendingRemove pending rid).2, some (w, .error e), w.alive) := by
  unfold resolve_response_envelope envelopeOutcome pendingRemove
  simp [hw]

theorem resolve_reply_missing (pending : PendingMap) (rid eid : Uuid)
    (r : FederationWsReply)
    (h : List.lookup rid pending = none) :
    resolve_response_envelope pending (.Reply rid eid r) =
      (pending, none, false) := by
  unfold resolve_response_envelope envelopeOutcome pendingRemove
  simp [h, filter_eq_self_of_lookup_none pending rid h]

theorem resolve_error_missing (pending : PendingMap) (rid eid : Uuid)
    (e : WsError)
    (h : List.lookup rid pending = none) :
    resolve_response_envelope pending (.Error (some rid) eid e) =
      (pending, none, false) := by
  unfold resolve_response_envelope envelopeOutcome pendingRemove
  simp [h, filter_eq_self_of_lookup_none pending rid h]

/-! ### Facts about the federation pool -/

theorem mapUpdate_self {α β : Type} [DecidableEq α] (m : α → Option β)
    (k : α) (v : Option β) : mapUpdate m k v k = v := by
  simp [mapUpdate]

theorem mapUpdate_ne {α β : Type} [DecidableEq α] (m : α → Option β)
    (k x : α) (v : Option β) (h : x ≠ k) : mapUpdate m k v x = m x := by
  simp [mapUpdate, h]

theorem rchi_ne_host (by_host : List Char → Option Uuid)
    (host : List Char) (cid : Uuid) (h : List Char) (hne : h ≠ host) :
    remove_conn_from_host_index by_host host cid h = by_host h := by
  unfold remove_conn_from_host_index
  by_cases hb : by_host host = some cid
  · rw [if_pos hb]
    exact mapUpdate_ne _ _ _ _ hne
  · rw [if_neg hb]

theorem rchi_sub (by_host : List Char → Option Uuid)
    (host : List Char) (cid : Uuid) (h : List Char) (c : Uuid)
    (hr : remove_conn_from_host_index by_host host cid h = some c) :
    by_host h = some c := by
  unfold remove_conn_from_host_index at hr
  by_cases hb : by_host host = some cid
  · rw [if_pos hb] at hr
    by_cases hh : h = host
    · subst hh
      rw [mapUpdate_self] at hr
      cases hr
    · rwa [mapUpdate_ne _ _ _ _ hh] at hr
  · rwa [if_neg hb] at hr

theorem rchi_not_cid_at_host (by_host : List Char → Option Uuid)
    (host : List Char) (cid : Uuid) :
    remove_conn_from_host_index by_host host cid host ≠ some cid := by
  unfold remove_conn_from_host_index
  by_cases hb : by_host host = some cid
  · rw [if_pos hb, mapUpdate_self]
    simp
  · rw [if_neg hb]
    exact hb

theorem rchi_eq_of_ne_val (by_host : List Char → Option Uuid)
    (host : List Char) (cid : Uuid) (h : List Char)
    (hval : by_host h ≠ some cid) :
    remove_conn_from_host_index by_host host cid h = by_host h := by
  unfold remove_conn_from_host_index
  by_cases hb : by_host host = some cid
  · rw [if_pos hb]
    by_cases hh : h = host
    · subst hh
      exact absurd hb hval
    · exact mapUpdate_ne _ _ _ _ hh
  · rw [if_neg hb]

theorem poolInv_empty : PoolInv emptyPool := by
  constructor
  · intro h cid hbh
    cases hbh
  · intro cid h hcc
    cases hcc

theorem poolInv_remove (s : FederationPoolState) (cid : Uuid)
    (hInv : PoolInv s) :
    PoolInv (remove_federation_connection s cid).1 := by
  obtain ⟨ha, hb⟩ := hInv
  unfold remove_federation_connection
  cases hc : s.connections cid with
  | none => exact ⟨ha, hb⟩
  | some hostOpt =>
    cases hostOpt with
    | none =>
      dsimp only
      constructor
      · intro h c hbh
        dsimp only at hbh ⊢
        have hcm := ha h c hbh
        have hcne : c ≠ cid := by
          intro he
          rw [he, hc] at hcm
          cases hcm
        rw [mapUpdate_ne _ _ _ _ hcne]
        exact hcm
      · intro c h hcc
        dsimp only at hcc ⊢
        have hcne : c ≠ cid := by
          intro he
          rw [he, mapUpdate_self] at hcc
          cases hcc
        rw [mapUpdate_ne _ _ _ _ hcne] at hcc
        exact hb c h hcc
    | some h0 =>
      dsimp only
      constructor
      · intro h c hbh
        dsimp only at hbh ⊢
        have hsub := rchi_sub s.by_host h0 cid h c hbh
        have hcm := ha h c hsub
        have hcne : c ≠ cid := by
          intro he
          rw [he, hc] at hcm
          injection hcm with hcm1
          injection hcm1 with hcm2
          rw [he, ← hcm2] at hbh
          exact rchi_not_cid_at_host s.by_host h0 cid hbh
        rw [mapUpdate_ne _ _ _ _ hcne]
        exact hcm
      · intro c h hcc
        dsimp only at hcc ⊢
        have hcne : c ≠ cid := by
          intro he
          rw [he, mapUpdate_self] at hcc
          cases hcc
        rw [mapUpdate_ne _ _ _ _ hcne] at hcc
        have hbh := hb c h hcc
        by_cases hh : h = h0
        · subst hh
          have hcid := hb cid h hc
          rw [hcid] at hbh
          injection hbh with he
          exact absurd he.symm hcne
        · rw [rchi_ne_host s.by_host h0 cid h hh]
          exact hbh

theorem poolInv_register (s : FederationPoolState) (cid : Uuid)
    (hInv : PoolInv s) : PoolInv (register_connection s cid) := by
  obtain ⟨ha, hb⟩ := hInv
  unfold register_connection
  cases hc : s.connections cid with
  | none =>
    dsimp only
    constructor
    · intro h c hbh
      dsimp only at hbh ⊢
      have hcm := ha h c hbh
      have hcne : c ≠ cid := by
        intro he
        rw [he, hc] at hcm
        cases hcm
      rw [mapUpdate_ne _ _ _ _ hcne]
      exact hcm
    · intro c h hcc
      dsimp only at hcc ⊢
      have hcne : c ≠ cid := by
        intro he
        rw [he, mapUpdate_self] at hcc
        cases hcc
      rw [mapUpdate_ne _ _ _ _ hcne] at hcc
      exact hb c h hcc
  | some hostOpt =>
    cases hostOpt with
    | none =>
      dsimp only
      constructor
      · intro h c hbh
        dsimp only at hbh ⊢
        have hcm := ha h c hbh
        have hcne : c ≠ cid := by
          intro he
          rw [he, hc] at hcm
          cases hcm
        rw [mapUpdate_ne _ _ _ _ hcne]
        exact hcm
      · intro c h hcc
        dsimp only at hcc ⊢
        have hcne : c ≠ cid := by
          intro he
          rw [he, mapUpdate_self] at hcc
          cases hcc
        rw [mapUpdate_ne _ _ _ _ hcne] at hcc
        exact hb c h hcc
    | some prev =>
      dsimp only
      constructor
      · intro h c hbh
        dsimp only at hbh ⊢
        have hsub := rchi_sub s.by_host prev cid h c hbh
        have hcm := ha h c hsub
        have hcne : c ≠ cid := by
          intro he
          rw [he, hc] at hcm
          injection hcm with h1
          injection h1 with h2
          rw [he, ← h2] at hbh
          exact rchi_not_cid_at_host s.by_host prev cid hbh
        rw [mapUpdate_ne _ _ _ _ hcne]
        exact hcm
      · intro c h hcc
        dsimp only at hcc ⊢
        have hcne : c ≠ cid := by
          intro he
          rw [he, mapUpdate_self] at hcc
          cases hcc
        rw [mapUpdate_ne _ _ _ _ hcne] at hcc
        have hbh := hb c h hcc
        have hval : s.by_host h ≠ some cid := by
          rw [hbh]
          intro he
          injection he with he2
          exact hcne he2
        rw [rchi_eq_of_ne_val s.by_host prev cid h hval]
        exact hbh

theorem auth_unlink_connections (s : FederationPoolState) (cid : Uuid)
    (pho : Option (List Char)) :
    (auth_unlink_previous s cid pho).connections = s.connections := by
  cases pho <;> rfl

theorem auth_unlink_sub (s : FederationPoolState) (cid : Uuid)
    (pho : Option (List Char)) (h : List Char) (c : Uuid)
    (hr : (auth_unlink_previous s cid pho).by_host h = some c) :
    s.by_host h = some c := by
  cases pho with
  | none => exact hr
  | some prev => exact rchi_sub s.by_host prev cid h c hr

theorem auth_unlink_ne_cid (s : FederationPoolState) (cid : Uuid)
    (pho : Option (List Char)) (hInv : PoolInv s)
    (hc : s.connections cid = some pho) (h : List Char) :
    (auth_unlink_previous s cid pho).by_host h ≠ some cid := by
  obtain ⟨ha, _⟩ := hInv
  cases pho with
  | none =>
    intro he
    have hcm := ha h cid he
    rw [hc] at hcm
    cases hcm
  | some prev =>
    intro he
    have hsub := rchi_sub s.by_host prev cid h cid he
    have hcm := ha h cid hsub
    rw [hc] at hcm
    injection hcm with h1
    injection h1 with h2
    rw [← h2] at he
    exact rchi_not_cid_at_host s.by_host prev cid he

theorem auth_unlink_keep (s : FederationPoolState) (cid : Uuid)
    (pho : Option (List Char)) (h : List Char) (c : Uuid)
    (hbh : s.by_host h = some c) (hcne : c ≠ cid) :
    (auth_unlink_previous s cid pho).by_host h = some c := by
  cases pho with
  | none => exact hbh
  | some prev =>
    have hval : s.by_host h ≠ some cid := by
      rw [hbh]
      intro he
      injection he with he2
      exact hcne he2
    show remove_conn_from_host_index s.by_host prev cid h = some c
    rw [rchi_eq_of_ne_val s.by_host prev cid h hval]
    exact hbh

theorem auth_evict_facts (s : FederationPoolState) (cid : Uuid)
    (host : List Char) (pho : Option (List Char)) (hInv : PoolInv s)
    (hc : s.connections cid = some pho) :
    (auth_evict_existing (auth_unlink_previous s cid pho) cid
        host).connections cid = some pho ∧
    (∀ h c, h ≠ host →
      (auth_evict_existing (auth_unlink_previous s cid pho) cid
          host).by_host h = some c →
      c ≠ cid ∧
      (auth_evict_existing (auth_unlink_previous s cid pho) cid
          host).connections c = some (some h)) ∧
    (∀ c h, c ≠ cid → h ≠ host →
      (auth_evict_existing (auth_unlink_previous s cid pho) cid
          host).connections c = some (some h) →
      (auth_evict_existing (auth_unlink_previous s cid pho) cid
          host).by_host h = some c) ∧
    (∀ c, c ≠ cid →
      (auth_evict_existing (auth_unlink_previous s cid pho) cid
          host).connections c ≠ some (some host)) := by
  obtain ⟨ha, hb⟩ := hInv
  have hs1conn := auth_unlink_connections s cid pho
  unfold auth_evict_existing
  cases hex : (auth_unlink_previous s cid pho).by_host host with
  | none =>
    dsimp only
    refine ⟨?_, ?_, ?_, ?_⟩
    · rw [hs1conn]
      exact hc
    · intro h c _ hbh
      have hcne : c ≠ cid := by
        intro he
        exact auth_unlink_ne_cid s cid pho ⟨ha, hb⟩ hc h (he ▸ hbh)
      refine ⟨hcne, ?_⟩
      rw [hs1conn]
      exact ha h c (auth_unlink_sub s cid pho h c hbh)
    · intro c h hcne _ hcc
      rw [hs1conn] at hcc
      exact auth_unlink_keep s cid pho h c (hb c h hcc) hcne
    · intro c hcne hcc
      rw [hs1conn] at hcc
      have := auth_unlink_keep s cid pho host c (hb c host hcc) hcne
      rw [hex] at this
      cases this
  | some existing =>
    have hexc : existing ≠ cid := by
      intro he
      exact auth_unlink_ne_cid s cid pho ⟨ha, hb⟩ hc host (he ▸ hex)
    dsimp only
    rw [if_pos hexc]
    have hsx : s.by_host host = some existing :=
      auth_unlink_sub s cid pho host existing hex
    have hconx : s.connections existing = some (some host) :=
      ha host existing hsx
    unfold remove_federation_connection
    rw [hs1conn, hconx]
    dsimp only
    refine ⟨?_, ?_, ?_, ?_⟩
    · rw [mapUpdate_ne _ _ _ _ (fun he => hexc he.symm)]
      exact hc
    · intro h c hh hbh
      rw [rchi_ne_host _ _ _ _ hh] at hbh
      have hcne : c ≠ cid := by
        intro he
        exact auth_unlink_ne_cid s cid pho ⟨ha, hb⟩ hc h (he ▸ hbh)
      have hsub := auth_unlink_sub s cid pho h c hbh
      have hcm := ha h c hsub
      have hcex : c ≠ existing := by
        intro he
        rw [he, hconx] at hcm
        injection hcm with h1
        injection h1 with h2
        exact hh h2.symm
      refine ⟨hcne, ?_⟩
      rw [mapUpdate_ne _ _ _ _ hcex]
      exact hcm
    · intro c h hcne hh hcc
      have hcex : c ≠ existing := by
        intro he
        rw [he, mapUpdate_self] at hcc
        cases hcc
      rw [mapUpdate_ne _ _ _ _ hcex] at hcc
      have hbh := hb c h hcc
      rw [rchi_ne_host _ _ _ _ hh]
      exact auth_unlink_keep s cid pho h c hbh hcne
    · intro c hcne hcc
      have hcex : c ≠ existing := by
        intro he
        rw [he, mapUpdate_self] at hcc
        cases hcc
      rw [mapUpdate_ne _ _ _ _ hcex] at hcc
      have hbh := hb c host hcc
      rw [hsx] at hbh
      injection hbh with he2
      exact hcex he2.symm

theorem auth_post (s : FederationPoolState) (cid : Uuid) (host : List Char)
    (pho : Option (List Char)) (hInv : PoolInv s)
    (hc : s.connections cid = some pho) :
    PoolInv (authenticate_connection s cid host).1 ∧
    (authenticate_connection s cid host).1.by_host host = some cid ∧
    (∀ c, c ≠ cid →
      (authenticate_connection s cid host).1.connections c ≠
        some (some host)) := by
  obtain ⟨hcid2, hA, hB, hC⟩ := auth_evict_facts s cid host pho hInv hc
  unfold authenticate_connection
  rw [hc]
  dsimp only
  refine ⟨⟨?_, ?_⟩, ?_, ?_⟩
  · intro h c hbh
    dsimp only at hbh ⊢
    by_cases hh : h = host
    · subst hh
      rw [mapUpdate_self] at hbh
      injection hbh with he
      rw [← he, mapUpdate_self]
    · rw [mapUpdate_ne _ _ _ _ hh] at hbh
      obtain ⟨hcne, hconn⟩ := hA h c hh hbh
      rw [mapUpdate_ne _ _ _ _ hcne]
      exact hconn
  · intro c h hcc
    dsimp only at hcc ⊢
    by_cases hcd : c = cid
    · subst hcd
      rw [mapUpdate_self] at hcc
      injection hcc with he
      injection he with he2
      rw [← he2, mapUpdate_self]
    · rw [mapUpdate_ne _ _ _ _ hcd] at hcc
      by_cases hh : h = host
      · subst hh
        exact absurd hcc (hC c hcd)
      · rw [mapUpdate_ne _ _ _ _ hh]
        exact hB c h hcd hh hcc
  · rw [mapUpdate_self]
  · intro c hcne
    rw [mapUpdate_ne _ _ _ _ hcne]
    exact hC c hcne

theorem poolInv_auth (s : FederationPoolState) (cid : Uuid)
    (host : List Char) (hInv : PoolInv s) :
    PoolInv (authenticate_connection s cid host).1 := by
  cases hc : s.connections cid with
  | none =>
    unfold authenticate_connection
    rw [hc]
    exact hInv
  | some pho => exact (auth_post s cid host pho hInv hc).1

theorem poolInv_reachable (s : FederationPoolState)
    (h : PoolReachable s) : PoolInv s := by
  induction h with
  | init => exact poolInv_empty
  | register s cid _ ih => exact poolInv_register s cid ih
  | auth s cid host _ ih => exact poolInv_auth s cid host ih
  | dereg s cid _ ih => exact poolInv_remove s cid ih

end Runelink

namespace Claims

open Runelink

/-- Claim C1 is false as stated: `pad_host` is not idempotent on every
host string. On the malformed IPv6 literal `"[::1"` (the very input the
claim cites), every application of `pad_host` appends another `":7000"`,
so `pad_host(pad_host("[::1"))` is `"[::1:7000:7000"`, not
`"[::1:7000"`. -/
theorem C1_counterexample :
    pad_host (pad_host malformedV6) ≠ pad_host malformedV6 := by
  decide

/-- Claim C1, amended: `pad_host(pad_host(h)) == pad_host(h)` for every
host `h` that is well-bracketed (it does not start with `'['`, or its
first `']'` is followed by nothing or by `':'`) — in particular the
idempotence fails exactly on malformed bracketed hosts such as `"[::1"`;
for every server configuration
`is_remote_host(Some(local_host())) == false`; and a malformed IPv6
literal without a closing bracket is padded by appending `":7000"`. -/
theorem C1_pad_host_and_locality :
    (∀ h : List Char, wellBracketed h = true →
        pad_host (pad_host h) = pad_host h) ∧
    (∀ cfg : ServerConfig,
        cfg.is_remote_host (some cfg.local_host) = false) ∧
    pad_host malformedV6 = malformedV6 ++ portSuffix := by
  refine ⟨pad_host_idem_of_wellBracketed, is_remote_host_local_false, ?_⟩
  decide

/-- Witness for C1: the hostname `"h1"` is well-bracketed and padding it
is idempotent. -/
theorem C1_witness :
    wellBracketed exHost = true ∧
    pad_host (pad_host exHost) = pad_host exHost :=
  ⟨by decide, C1_pad_host_and_locality.1 exHost (by decide)⟩

/-- Claim C8: converting a `ServerMembership` with `as_full(u)` and back
through `From<FullServerMembership>` preserves `server`, `role`,
`joined_at`, `updated_at` and `synced_at`, with `user_ref` reconstructed
as `u.as_ref()`. -/
theorem C8_membership_roundtrip (m : ServerMembership) (u : User) :
    serverMembership_from_full (m.as_full u) =
      { server := m.server
        user_ref := u.as_ref
        role := m.role
        joined_at := m.joined_at
        updated_at := m.updated_at
        synced_at := m.synced_at } :=
  rfl

/-- Claim C7: the `refresh_token` grant fails with an auth error iff the
stored row is revoked or `expires_at ≤ now`; on success the response
carries a fresh one-hour access token (`expires_in = 3600`,
`exp = now + 3600`, subject `name@host` of the stored row) and the
stored refresh token itself, unrotated. -/
theorem C7_refresh_grant (rt : RefreshToken) (now : Int)
    (client_id scope api_url : List Char) :
    ((∃ msg, token_refresh_grant rt now client_id scope api_url =
        .error (.AuthError msg)) ↔
      (rt.revoked = true ∨ rt.expires_at ≤ now)) ∧
    (∀ resp, token_refresh_grant rt now client_id scope api_url = .ok resp →
      resp.refresh_token = rt.token ∧
      resp.expires_in = 3600 ∧
      resp.access_token.exp = now + 3600 ∧
      resp.access_token.iat = now ∧
      resp.access_token.sub =
        (UserRef.mk rt.user_name rt.user_host).as_subject ∧
      resp.access_token.iss = api_url) := by
  unfold token_refresh_grant
  by_cases h : rt.revoked = true ∨ rt.expires_at ≤ now
  · rw [if_pos h]
    refine ⟨⟨fun _ => h, fun _ => ⟨strRefreshExpired, rfl⟩⟩, ?_⟩
    intro resp hresp
    exact absurd hresp (by simp)
  · rw [if_neg h]
    refine ⟨⟨?_, fun hc => absurd hc h⟩, ?_⟩
    · rintro ⟨msg, hmsg⟩
      exact absurd hmsg (by simp)
    · intro resp hresp
      cases hresp
      exact ⟨rfl, rfl, rfl, rfl, rfl, rfl⟩

/-- Witness for C7: the revoked fixture row is rejected with an auth
error. -/
theorem C7_witness :
    ∃ msg, token_refresh_grant rtRevoked 0 [] [] [] =
      .error (.AuthError msg) :=
  (C7_refresh_grant rtRevoked 0 [] [] []).1.mpr (Or.inl (by decide))

/-- Claim C9: creating a membership whose server host is remote on
behalf of a user whose host is also remote fails with the
`BadRequest("User host in membership does not match local host")` error
before any federation request or store write (the effect trace is
empty). -/
theorem C9_remote_membership_requires_local_user (cfg : ServerConfig)
    (nm : NewServerMembership) (env : MembershipsCreateEnv)
    (hs : cfg.is_remote_host (some nm.server_host) = true)
    (hu : cfg.is_remote_host (some nm.user_ref.host) = true) :
    memberships_create cfg nm env =
      (.error (.BadRequest strUserHostMismatch), []) := by
  unfold memberships_create
  rw [hs, hu]
  simp

/-- Witness for C9: a membership on remote server host `h2` for remote
user `b@h2`, evaluated against the `h1` configuration. -/
theorem C9_witness :
    memberships_create cfgEx
      { user_ref := exRemoteUserRef, server_id := 1, server_host := exHost2
        role := .member }
      exMembershipsCreateEnv =
      (.error (.BadRequest strUserHostMismatch), []) :=
  C9_remote_membership_requires_local_user cfgEx _ _ (by decide) (by decide)

/-- Claim C10: `ops::memberships::delete` errors before touching the
store or federation (empty effect trace) when the session has no
`user_ref` (auth error) or when the session's `user_ref` differs from
the one being removed (bad request); and a host admin — although granted
by the declared requirement `or!(User(user_ref),
ServerAdmin(server_id)).or_admin().client_only()` — satisfies that
requirement while still hitting the bad-request rejection. -/
theorem C10_membership_delete_requires_self :
    (∀ (cfg : ServerConfig) (session : Session) (server_id : Uuid)
        (user_ref : UserRef) (target_host : Option (List Char))
        (env : MembershipsDeleteEnv),
      session.user_ref = none →
      memberships_delete cfg session server_id user_ref target_host env =
        (.error (.AuthError strUserRefRequiredLeave), [])) ∧
    (∀ (cfg : ServerConfig) (session : Session) (server_id : Uuid)
        (user_ref : UserRef) (target_host : Option (List Char))
        (env : MembershipsDeleteEnv) (u : UserRef),
      session.user_ref = some u → u ≠ user_ref →
      memberships_delete cfg session server_id user_ref target_host env =
        (.error (.BadRequest strUserIdentityMismatch), [])) ∧
    (∀ (admin : User) (memberships : Uuid → UserRef → Option ServerRole)
        (server_id : Uuid) (user_ref : UserRef),
      admin.role = UserRole.admin →
      evalClientRequirement (some admin) memberships
        (memberships_auth_delete server_id user_ref) = true) := by
  refine ⟨?_, ?_, ?_⟩
  · intro cfg session server_id user_ref target_host env hnone
    unfold memberships_delete
    rw [hnone]
  · intro cfg session server_id user_ref target_host env u hsome hne
    unfold memberships_delete
    rw [hsome]
    simp [hne]
  · intro admin memberships server_id user_ref hrole
    simp [memberships_auth_delete, Requirement.client_only,
      Requirement.or_admin, evalClientRequirement, hrole]

/-- Witness for C10: the admin `c@h1` satisfies the declared delete
requirement for removing `a@h1` yet the operation rejects the attempt. -/
theorem C10_witness :
    evalClientRequirement (some exAdminUser) (fun _ _ => none)
      (memberships_auth_delete 1 exUserRef) = true ∧
    memberships_delete cfgEx { user_ref := some exAdminUser.as_ref } 1
      exUserRef none exMembershipsDeleteEnv =
      (.error (.BadRequest strUserIdentityMismatch), []) :=
  ⟨C10_membership_delete_requires_self.2.2 exAdminUser _ 1 exUserRef rfl,
   C10_membership_delete_requires_self.2.1 cfgEx _ 1 exUserRef none
     exMembershipsDeleteEnv exAdminUser.as_ref rfl (by decide)⟩

/-- Claim C6 is false as stated for channel gets: the local branch of
`ops::channels::get_by_id` performs no `server_id` check at all, so a
channel fetched through a path naming the wrong server is returned
successfully instead of producing the `AuthError`. Here channel 10 lives
in server 1 but is requested under server 2. -/
theorem C6_counterexample :
    channels_get_by_id_local 2 (.ok exChannel) = .ok exChannel ∧
    exChannel.server_id ≠ 2 := by
  constructor
  · rfl
  · decide

/-- Claim C6, amended: for local channel *deletes* and local message
gets and deletes, a path mismatch (channel not in the named server, or
message not in the named channel) yields an `AuthError` whose message
contains `"not found in specified"`; the local channel *get* performs no
such verification and returns the row found by id. -/
theorem C6_path_mismatch_auth_errors :
    (∀ (server_id : Uuid) (ch : Channel) (db_delete : Except ApiError Unit),
      ch.server_id ≠ server_id →
      channels_delete_local server_id (.ok ch) db_delete =
        .error (.AuthError strChannelNotInServer)) ∧
    (∀ (server_id channel_id : Uuid) (m : Message)
        (db_channel : Except ApiError Channel)
        (db_delete : Except ApiError Unit),
      m.channel_id ≠ channel_id →
      messages_get_by_id_local server_id channel_id (.ok m) db_channel =
        .error (.AuthError strMessageNotInChannel) ∧
      messages_delete_local server_id channel_id (.ok m) db_channel
          db_delete =
        .error (.AuthError strMessageNotInChannel)) ∧
    (∀ (server_id channel_id : Uuid) (m : Message) (ch : Channel)
        (db_delete : Except ApiError Unit),
      m.channel_id = channel_id → ch.server_id ≠ server_id →
      messages_get_by_id_local server_id channel_id (.ok m) (.ok ch) =
        .error (.AuthError strMessageNotInServer) ∧
      messages_delete_local server_id channel_id (.ok m) (.ok ch)
          db_delete =
        .error (.AuthError strMessageNotInServer)) ∧
    (∀ (server_id : Uuid) (db_channel : Except ApiError Channel),
      channels_get_by_id_local server_id db_channel = db_channel) ∧
    (List.IsInfix strNotFoundInSpecified strChannelNotInServer ∧
     List.IsInfix strNotFoundInSpecified strMessageNotInChannel ∧
     List.IsInfix strNotFoundInSpecified strMessageNotInServer) := by
  refine ⟨?_, ?_, ?_, ?_, ?_, ?_, ?_⟩
  · intro server_id ch db_delete hne
    simp [channels_delete_local, hne]
  · intro server_id channel_id m db_channel db_delete hne
    constructor
    · simp [messages_get_by_id_local, hne]
    · simp [messages_delete_local, hne]
  · intro server_id channel_id m ch db_delete heq hne
    constructor
    · simp [messages_get_by_id_local, heq, hne]
    · simp [messages_delete_local, heq, hne]
  · intro server_id db_channel
    cases db_channel <;> rfl
  · decide
  · decide
  · decide

/-- Witness for C6 (amended): deleting channel 10 under the wrong server
2 is rejected with the channel-scoped auth error. -/
theorem C6_witness :
    channels_delete_local 2 (.ok exChannel) (.ok ()) =
      .error (.AuthError strChannelNotInServer) :=
  C6_path_mismatch_auth_errors.1 2 exChannel (.ok ()) (by decide)

/-- Claim C2 is false as stated: a channel create with no `target_host`
runs locally, but its fanout still emits outbound federation traffic —
here a `ChannelUpserted` federation update to the remote member host
`h2`. -/
theorem C2_counterexample :
    cfgEx.is_remote_host none = false ∧
    (channels_create cfgEx { user_ref := none } 1
        { title := [], description := none } none exChannelsCreateEnv).2.any
      OpEffect.isFederationTraffic = true := by
  constructor
  · rfl
  · decide

/-- Claim C2, amended: when the `target_host` is absent or pads to the
local host, the operation executes the local path (the inserted row is
returned) and produces no outbound federation *request*; the only
federation traffic it may emit is the best-effort update fanout, one
`ChannelUpserted` update per distinct remote member host of the server. -/
theorem C2_local_path_no_federation_requests (cfg : ServerConfig)
    (session : Session) (server_id : Uuid) (nc : NewChannel)
    (target_host : Option (List Char)) (env : ChannelsCreateEnv)
    (hlocal : cfg.is_remote_host target_host = false) :
    (channels_create cfg session server_id nc target_host env).1 =
      .ok env.inserted ∧
    (∀ e ∈ (channels_create cfg session server_id nc target_host env).2,
      e.isFederationRequest = false) ∧
    (∀ e ∈ (channels_create cfg session server_id nc target_host env).2,
      e.isFederationTraffic = true →
      ∃ h, h ∈ env.targets.remote_hosts ∧
        e = .fedUpdateSend h (.ChannelUpserted env.inserted)) := by
  unfold channels_create
  rw [if_pos (by rw [hlocal]; rfl : (!cfg.is_remote_host target_host) = true)]
  refine ⟨rfl, ?_, ?_⟩
  · intro e he
    simp only [List.mem_cons, fanout_update, List.mem_append,
      List.mem_map] at he
    rcases he with rfl | rfl | he | he
    · rfl
    · rfl
    · obtain ⟨u, _, rfl⟩ := he; rfl
    · obtain ⟨h, _, rfl⟩ := he; rfl
  · intro e he htraffic
    simp only [List.mem_cons, fanout_update, List.mem_append,
      List.mem_map] at he
    rcases he with rfl | rfl | he | he
    · exact absurd htraffic (by simp [OpEffect.isFederationTraffic])
    · exact absurd htraffic (by simp [OpEffect.isFederationTraffic])
    · obtain ⟨u, _, rfl⟩ := he
      exact absurd htraffic (by simp [OpEffect.isFederationTraffic])
    · obtain ⟨h, hh, rfl⟩ := he
      exact ⟨h, List.mem_dedup.mp hh, rfl⟩

/-- Witness for C2 (amended): the counterexample configuration, seen
through the amended statement — the create succeeds locally and every
effect is a non-request. -/
theorem C2_witness :
    (channels_create cfgEx { user_ref := none } 1
        { title := [], description := none } none exChannelsCreateEnv).1 =
      .ok exChannelsCreateEnv.inserted ∧
    ∀ e ∈ (channels_create cfgEx { user_ref := none } 1
        { title := [], description := none } none exChannelsCreateEnv).2,
      e.isFederationRequest = false := by
  have h := C2_local_path_no_federation_requests cfgEx { user_ref := none } 1
    { title := [], description := none } none exChannelsCreateEnv rfl
  exact ⟨h.1, h.2.1⟩

/-- Claim C3: a `Reply` or `Error` envelope matching an outstanding
pending request removes and completes exactly that waiter, exactly once
(a second envelope with the same id finds nothing); an envelope matching
no pending entry is dropped with the map unchanged; and the timeout
branch of `send_request_to_host` removes the waiter, so a reply arriving
after the timeout is dropped rather than delivered. -/
theorem C3_reply_correlation :
    (∀ (pending : PendingMap) (rid eid : Uuid) (r : FederationWsReply)
        (w : Waiter),
      List.lookup rid pending = some w →
      resolve_response_envelope pending (.Reply rid eid r) =
        ((pendingRemove pending rid).2, some (w, .ok r), w.alive) ∧
      List.lookup rid
        (resolve_response_envelope pending (.Reply rid eid r)).1 = none ∧
      resolve_response_envelope
          (resolve_response_envelope pending (.Reply rid eid r)).1
          (.Reply rid eid r) =
        ((resolve_response_envelope pending (.Reply rid eid r)).1,
          none, false)) ∧
    (∀ (pending : PendingMap) (rid eid : Uuid) (e : WsError) (w : Waiter),
      List.lookup rid pending = some w →
      resolve_response_envelope pending (.Error (some rid) eid e) =
        ((pendingRemove pending rid).2, some (w, .error e), w.alive)) ∧
    (∀ (pending : PendingMap) (rid eid : Uuid) (r : FederationWsReply),
      List.lookup rid pending = none →
      resolve_response_envelope pending (.Reply rid eid r) =
        (pending, none, false)) ∧
    (∀ (pending : PendingMap) (rid eid : Uuid) (e : WsError),
      List.lookup rid pending = none →
      resolve_response_envelope pending (.Error (some rid) eid e) =
        (pending, none, false)) ∧
    (∀ (pending : PendingMap) (host : List Char) (rid eid : Uuid)
        (w : Waiter) (env : SendEnv) (r : FederationWsReply),
      env.has_host_before = true → env.send_ok = true →
      env.rx = .timedOut → List.lookup rid pending = none →
      (send_request_to_host pending host rid w env).result =
        .error (.Timeout (pad_host host) rid) ∧
      List.lookup rid (send_request_to_host pending host rid w env).pending =
        none ∧
      resolve_response_envelope
          (send_request_to_host pending host rid w env).pending
          (.Reply rid eid r) =
        ((send_request_to_host pending host rid w env).pending,
          none, false)) := by
  refine ⟨?_, resolve_error_found, resolve_reply_missing,
    resolve_error_missing, ?_⟩
  · intro pending rid eid r w hw
    have h1 := resolve_reply_found pending rid eid r w hw
    have h2 : List.lookup rid
        (resolve_response_envelope pending (.Reply rid eid r)).1 = none := by
      rw [h1]
      exact lookup_filter_self pending rid
    exact ⟨h1, h2, resolve_reply_missing _ rid eid r h2⟩
  · intro pending host rid eid w env r hbefore hsend hrx hfresh
    have hout : send_request_to_host pending host rid w env =
        { result := .error (.Timeout (pad_host host) rid)
          pending := (pendingRemove ((rid, w) :: pending) rid).2
          dials := 0
          waiter_inserted := true } := by
      unfold send_request_to_host ensure_connection
      rw [hbefore, hsend, hrx]
      simp
    rw [hout]
    have hnone : List.lookup rid
        (pendingRemove ((rid, w) :: pending) rid).2 = none :=
      lookup_filter_self ((rid, w) :: pending) rid
    exact ⟨rfl, hnone, resolve_reply_missing _ rid eid r hnone⟩

/-- Witness for C3: a one-entry pending map is completed and emptied by
the matching reply. -/
theorem C3_witness :
    resolve_response_envelope ((5, exWaiter) :: [])
        (.Reply 5 0 .MembershipsDelete) =
      ((pendingRemove ((5, exWaiter) :: []) 5).2,
        some (exWaiter, .ok .MembershipsDelete), exWaiter.alive) :=
  (C3_reply_correlation.1 ((5, exWaiter) :: []) 5 0 .MembershipsDelete
    exWaiter (by decide)).1

/-- Claim C4: a `send_request_to_host` call for a host with no live
pooled connection makes exactly one dial attempt, and on dial failure
returns `HostUnavailable` with the pending map untouched — no waiter was
ever inserted. -/
theorem C4_dial_failure_no_waiter (pending : PendingMap) (host : List Char)
    (rid : Uuid) (w : Waiter) (env : SendEnv)
    (hnolive : env.has_host_before = false) :
    (send_request_to_host pending host rid w env).dials = 1 ∧
    (env.dial_ok = false →
      (send_request_to_host pending host rid w env).result =
        .error (.HostUnavailable (pad_host host)) ∧
      (send_request_to_host pending host rid w env).pending = pending ∧
      (send_request_to_host pending host rid w env).waiter_inserted =
        false) := by
  constructor
  · unfold send_request_to_host ensure_connection
    rw [hnolive]
    cases hdo : env.dial_ok <;>
      cases hha : env.has_host_after_dial <;>
        cases hso : env.send_ok <;>
          cases hrx : env.rx <;> simp
  · intro hdial
    unfold send_request_to_host ensure_connection
    rw [hnolive, hdial]
    simp

/-- Witness for C4: the never-connected, dial-failing environment
yields `HostUnavailable` for host `h2` with one dial and no waiter. -/
theorem C4_witness :
    (send_request_to_host [] exHost2 7 exWaiter exSendEnvDialFail).dials =
      1 ∧
    (send_request_to_host [] exHost2 7 exWaiter exSendEnvDialFail).result =
      .error (.HostUnavailable (pad_host exHost2)) ∧
    (send_request_to_host [] exHost2 7 exWaiter
      exSendEnvDialFail).pending = [] ∧
    (send_request_to_host [] exHost2 7 exWaiter
      exSendEnvDialFail).waiter_inserted = false := by
  have h := C4_dial_failure_no_waiter [] exHost2 7 exWaiter
    exSendEnvDialFail (by decide)
  exact ⟨h.1, h.2 (by decide)⟩

/-- Claim C5: in every reachable federation-pool state the two indices
cohere (`PoolInv`), so each peer host has at most one live connection
(any two connections authenticated to the same host coincide — a
connection holds at most one host by construction of its `host` field);
and `authenticate_connection` rebinds the host index to the
authenticating connection and leaves no other connection authenticated
to that host (the previous holder is evicted). -/
theorem C5_pool_host_uniqueness :
    (∀ s, PoolReachable s → PoolInv s) ∧
    (∀ s cid1 cid2 h, PoolReachable s →
      s.connections cid1 = some (some h) →
      s.connections cid2 = some (some h) → cid1 = cid2) ∧
    (∀ s cid host pho, PoolInv s → s.connections cid = some pho →
      (authenticate_connection s cid host).1.by_host host = some cid ∧
      ∀ c, c ≠ cid →
        (authenticate_connection s cid host).1.connections c ≠
          some (some host)) := by
  refine ⟨poolInv_reachable, ?_, ?_⟩
  · intro s cid1 cid2 h hr h1 h2
    obtain ⟨_, hb⟩ := poolInv_reachable s hr
    have e1 := hb cid1 h h1
    have e2 := hb cid2 h h2
    rw [e1] at e2
    injection e2
  · intro s cid host pho hInv hc
    exact (auth_post s cid host pho hInv hc).2

/-- Witness for C5: after registering connection 1 in the empty pool,
the state is reachable and coherent, and authenticating it to `h2`
indexes `h2` to connection 1. -/
theorem C5_witness :
    PoolInv (register_connection emptyPool 1) ∧
    (authenticate_connection (register_connection emptyPool 1) 1
        exHost2).1.by_host exHost2 = some 1 :=
  ⟨C5_pool_host_uniqueness.1 (register_connection emptyPool 1)
      (PoolReachable.register emptyPool 1 PoolReachable.init),
   (C5_pool_host_uniqueness.2.2 (register_connection emptyPool 1) 1 exHost2
      none
      (C5_pool_host_uniqueness.1 (register_connection emptyPool 1)
        (PoolReachable.register emptyPool 1 PoolReachable.init))
      rfl).1⟩

end Claims
